import Mathlib

/-!
Verification of the market-making core (spread model, inventory ledger,
constant-product liquidity pool, coordinator) against its specification.

The TypeScript sources are shallowly embedded: numeric state is modelled with
exact rationals `ℚ` (the pool-initialization path, which calls `Math.sqrt`,
is modelled over `ℝ`); methods that `throw` are modelled with `Except`;
mutating methods take the object state and return the updated state.
`Date.now()` timestamps and random id generation are external capabilities
per the specification and are passed in as arguments or omitted when no
property depends on them.
-/

namespace MM

/-! ## Liquidity pool (src class LiquidityPool) -/

/-- The two pool tokens, `'A' | 'B'` in the source. -/
inductive Token where
  | A
  | B
deriving DecidableEq, Repr

/-- Mutable fields of class `LiquidityPool`: `tokenAReserve`, `tokenBReserve`,
`lpTokenSupply`, `fee`.  The `lastUpdate` clock field is an external
capability and carries no verified property, so it is omitted. -/
structure Pool where
  tokenAReserve : ℚ
  tokenBReserve : ℚ
  lpTokenSupply : ℚ
  fee : ℚ
deriving DecidableEq, Repr

/-- Errors thrown by pool methods. -/
inductive PoolError where
  | invalidSwapAmount
  | slippageExceeded
  | invalidLpAmount
  | insufficientLiquidity
deriving DecidableEq, Repr

/-- `SwapResult` record returned from `simulateSwap` / `executeSwap`. -/
structure SwapResult where
  amountIn : ℚ
  amountOut : ℚ
  priceImpact : ℚ
  fee : ℚ
  newPrice : ℚ
deriving DecidableEq, Repr

/-- `getPrice()`: `tokenBReserve / tokenAReserve`, `0` on an empty A reserve. -/
def Pool.getPrice (p : Pool) : ℚ :=
  if p.tokenAReserve = 0 then 0 else p.tokenBReserve / p.tokenAReserve

/-- `getSpotPrice(tokenIn)`. -/
def Pool.getSpotPrice (p : Pool) (tokenIn : Token) : ℚ :=
  match tokenIn with
  | .A => if p.tokenAReserve > 0 then p.tokenBReserve / p.tokenAReserve else 0
  | .B => if p.tokenBReserve > 0 then p.tokenAReserve / p.tokenBReserve else 0

/-- The `SwapResult` computed in the body of `simulateSwap` (the source
computes the same quantities in two structurally identical branches on
`tokenIn`; here the branch only selects the in/out reserves). -/
def Pool.swapResultOf (p : Pool) (amountIn : ℚ) (tokenIn : Token) : SwapResult :=
  let feeAmount := amountIn * p.fee
  let amountInAfterFee := amountIn - feeAmount
  let reserveInOld := match tokenIn with | .A => p.tokenAReserve | .B => p.tokenBReserve
  let reserveOutOld := match tokenIn with | .A => p.tokenBReserve | .B => p.tokenAReserve
  let newReserveIn := reserveInOld + amountInAfterFee
  let k := p.tokenAReserve * p.tokenBReserve
  let newReserveOut := k / newReserveIn
  let amountOut := reserveOutOld - newReserveOut
  let spotPriceBefore := p.getSpotPrice tokenIn
  let executionPrice := amountOut / amountIn
  let priceImpact := |executionPrice - spotPriceBefore| / spotPriceBefore
  let newPrice :=
    match tokenIn with
    | .A => newReserveOut / newReserveIn
    | .B => newReserveIn / newReserveOut
  ⟨amountIn, amountOut, priceImpact, feeAmount, newPrice⟩

/-- `simulateSwap(amountIn, tokenIn)`: throws on `amountIn ≤ 0`, otherwise
returns the swap result without touching reserves. -/
def Pool.simulateSwap (p : Pool) (amountIn : ℚ) (tokenIn : Token) :
    Except PoolError SwapResult :=
  if amountIn ≤ 0 then .error .invalidSwapAmount
  else .ok (p.swapResultOf amountIn tokenIn)

/-- `executeSwap(amountIn, tokenIn, minAmountOut)`: re-derives the result via
`simulateSwap`, throws `slippageExceeded` when `amountOut < minAmountOut`
(leaving the state as it was), otherwise applies the reserve mutation. -/
def Pool.executeSwap (p : Pool) (amountIn : ℚ) (tokenIn : Token) (minAmountOut : ℚ) :
    Except PoolError SwapResult × Pool :=
  match p.simulateSwap amountIn tokenIn with
  | .error e => (.error e, p)
  | .ok result =>
    if result.amountOut < minAmountOut then
      (.error .slippageExceeded, p)
    else
      let amountInAfterFee := amountIn - result.fee
      let p' :=
        match tokenIn with
        | .A => { p with tokenAReserve := p.tokenAReserve + amountInAfterFee,
                         tokenBReserve := p.tokenBReserve - result.amountOut }
        | .B => { p with tokenBReserve := p.tokenBReserve + amountInAfterFee,
                         tokenAReserve := p.tokenAReserve - result.amountOut }
      (.ok result, p')

/-- `getAmountOut(amountIn, tokenIn)` = `simulateSwap(...).amountOut`. -/
def Pool.getAmountOut (p : Pool) (amountIn : ℚ) (tokenIn : Token) :
    Except PoolError ℚ :=
  (p.simulateSwap amountIn tokenIn).map (fun r => r.amountOut)

/-- `getAmountIn(amountOut, tokenOut)`: inverse swap formula; returns `0` for
non-positive requests and throws `insufficientLiquidity` when the request
reaches the available out-reserve. -/
def Pool.getAmountIn (p : Pool) (amountOut : ℚ) (tokenOut : Token) :
    Except PoolError ℚ :=
  if amountOut ≤ 0 then .ok 0
  else
    let reserveIn := match tokenOut with | .A => p.tokenBReserve | .B => p.tokenAReserve
    let reserveOut := match tokenOut with | .A => p.tokenAReserve | .B => p.tokenBReserve
    if amountOut ≥ reserveOut then .error .insufficientLiquidity
    else .ok (reserveIn * amountOut / ((reserveOut - amountOut) * (1 - p.fee)))

/-- `RemoveLiquidityResult` record. -/
structure RemoveLiquidityResult where
  lpTokensBurned : ℚ
  tokenAReceived : ℚ
  tokenBReceived : ℚ
  fee : ℚ
deriving DecidableEq, Repr

/-- `removeLiquidity(lpTokens)`: rejects non-positive or oversized burns,
otherwise pays out the pro-rata share of both reserves. -/
def Pool.removeLiquidity (p : Pool) (lpTokens : ℚ) :
    Except PoolError RemoveLiquidityResult × Pool :=
  if lpTokens ≤ 0 ∨ lpTokens > p.lpTokenSupply then (.error .invalidLpAmount, p)
  else
    let share := lpTokens / p.lpTokenSupply
    let tokenAAmount := p.tokenAReserve * share
    let tokenBAmount := p.tokenBReserve * share
    (.ok ⟨lpTokens, tokenAAmount, tokenBAmount, 0⟩,
     { p with tokenAReserve := p.tokenAReserve - tokenAAmount,
              tokenBReserve := p.tokenBReserve - tokenBAmount,
              lpTokenSupply := p.lpTokenSupply - lpTokens })

/-! ## Pool initialization (modelled over `ℝ` because the source uses `Math.sqrt`) -/

/-- Errors thrown by `initialize`. -/
inductive InitError where
  | alreadyInitialized
  | invalidInitialAmounts
  | initialLiquidityTooLow
deriving DecidableEq, Repr

/-- `AddLiquidityResult` record (initialization path). -/
structure AddLiquidityResult where
  lpTokensReceived : ℝ
  tokenADeposited : ℝ
  tokenBDeposited : ℝ
  shareOfPool : ℝ

/-- Pool state over `ℝ`, used for the `initialize` path where `Math.sqrt`
makes the arithmetic irrational. -/
structure PoolR where
  tokenAReserve : ℝ
  tokenBReserve : ℝ
  lpTokenSupply : ℝ
  fee : ℝ

/-- The `MINIMUM_LIQUIDITY` constant (1000). -/
def MINIMUM_LIQUIDITY : ℝ := 1000

/-- `initialize(tokenAAmount, tokenBAmount)`: rejects an already-funded pool,
non-positive amounts, and `sqrt(a*b) < MINIMUM_LIQUIDITY`; otherwise sets the
reserves and mints `sqrt(a*b) - MINIMUM_LIQUIDITY` LP tokens. -/
noncomputable def PoolR.initializePool (p : PoolR) (tokenAAmount tokenBAmount : ℝ) :
    Except InitError AddLiquidityResult × PoolR :=
  if p.lpTokenSupply > 0 then (.error .alreadyInitialized, p)
  else if tokenAAmount ≤ 0 ∨ tokenBAmount ≤ 0 then (.error .invalidInitialAmounts, p)
  else
    let initialLiquidity := Real.sqrt (tokenAAmount * tokenBAmount)
    if initialLiquidity < MINIMUM_LIQUIDITY then (.error .initialLiquidityTooLow, p)
    else
      let p' := { p with tokenAReserve := tokenAAmount, tokenBReserve := tokenBAmount,
                         lpTokenSupply := initialLiquidity - MINIMUM_LIQUIDITY }
      (.ok ⟨p'.lpTokenSupply, tokenAAmount, tokenBAmount, 1⟩, p')

/-- `getPrice()` over `ℝ`. -/
noncomputable def PoolR.getPrice (p : PoolR) : ℝ :=
  if p.tokenAReserve = 0 then 0 else p.tokenBReserve / p.tokenAReserve

/-! ## Inventory controller (src class InventoryController) -/

/-- `InventoryConfig` value object. -/
structure InventoryConfig where
  targetInventory : ℚ
  maxInventory : ℚ
  minInventory : ℚ
  rebalanceThreshold : ℚ
  skewSensitivity : ℚ
deriving DecidableEq, Repr

/-- Trade side, `'buy' | 'sell'`. -/
inductive Side where
  | buy
  | sell
deriving DecidableEq, Repr

/-- `Trade` record. -/
structure Trade where
  id : String
  side : Side
  price : ℚ
  size : ℚ
  timestamp : ℚ
  fee : ℚ
deriving DecidableEq, Repr

/-- Mutable fields of class `InventoryController`. -/
structure InventoryController where
  config : InventoryConfig
  currentInventory : ℚ
  tradeHistory : List Trade
  avgEntryPrice : ℚ
deriving DecidableEq, Repr

/-- `updateAvgEntryPrice(price, size, side)`: called AFTER `currentInventory`
has been moved by the trade, so `c.currentInventory` here is the post-trade
(pre-clamp) inventory, exactly as in the source. -/
def InventoryController.updateAvgEntryPrice (c : InventoryController)
    (price size : ℚ) (side : Side) : InventoryController :=
  if side = .buy ∧ 0 < c.currentInventory then
    { c with avgEntryPrice :=
        (c.avgEntryPrice * (c.currentInventory - size) + price * size) /
          c.currentInventory }
  else if side = .sell ∧ c.currentInventory < 0 then
    { c with avgEntryPrice :=
        (c.avgEntryPrice * |c.currentInventory + size| + price * size) /
          |c.currentInventory| }
  else c

/-- `enforceInventoryLimits(previousInventory)`: hard clamp to
`[minInventory, maxInventory]` (the source logs a warning and caps; the
`previousInventory` argument is unused there as well). -/
def InventoryController.enforceInventoryLimits (c : InventoryController)
    (previousInventory : ℚ) : InventoryController :=
  if c.currentInventory > c.config.maxInventory then
    { c with currentInventory := c.config.maxInventory }
  else if c.currentInventory < c.config.minInventory then
    { c with currentInventory := c.config.minInventory }
  else c

/-- `updateInventory(trade)`: move inventory by the trade, update the average
entry price, append to the bounded history, then clamp to the limits. -/
def InventoryController.updateInventory (c : InventoryController) (trade : Trade) :
    InventoryController :=
  let previousInv := c.currentInventory
  let c1 :=
    match trade.side with
    | .buy =>
      InventoryController.updateAvgEntryPrice
        { c with currentInventory := c.currentInventory + trade.size }
        trade.price trade.size .buy
    | .sell =>
      InventoryController.updateAvgEntryPrice
        { c with currentInventory := c.currentInventory - trade.size }
        trade.price trade.size .sell
  let c2 := { c1 with tradeHistory := c1.tradeHistory ++ [trade] }
  let c3 :=
    if 1000 < c2.tradeHistory.length then
      { c2 with tradeHistory := c2.tradeHistory.drop (c2.tradeHistory.length - 500) }
    else c2
  c3.enforceInventoryLimits previousInv

/-- `Position` record. -/
structure Position where
  baseBalance : ℚ
  quoteBalance : ℚ
  netExposure : ℚ
  unrealizedPnL : ℚ
deriving DecidableEq, Repr

/-- `calculatePosition(currentPrice)`. -/
def InventoryController.calculatePosition (c : InventoryController)
    (currentPrice : ℚ) : Position :=
  let netExposure := c.currentInventory * currentPrice
  let unrealizedPnL :=
    if 0 < c.currentInventory then c.currentInventory * (currentPrice - c.avgEntryPrice)
    else if c.currentInventory < 0 then |c.currentInventory| * (c.avgEntryPrice - currentPrice)
    else 0
  ⟨c.currentInventory, -netExposure, netExposure, unrealizedPnL⟩

/-! ## Spread calculator (src class SpreadCalculator) -/

/-- `SpreadConfig` value object. -/
structure SpreadConfig where
  baseSpread : ℚ
  minSpread : ℚ
  maxSpread : ℚ
  volatilityMultiplier : ℚ
  inventorySkewMultiplier : ℚ
deriving DecidableEq, Repr

/-- `MarketData` snapshot. -/
structure MarketData where
  symbol : String
  lastPrice : ℚ
  bidPrice : ℚ
  askPrice : ℚ
  volume24h : ℚ
  high24h : ℚ
  low24h : ℚ
  volatility : ℚ
deriving DecidableEq, Repr

/-- `InventoryState` snapshot; the field `inventoryRatioVal` embeds the
source's `inventoryRatio` field (renamed only for lexical reasons). -/
structure InventoryState where
  currentInventory : ℚ
  targetInventory : ℚ
  inventoryRatioVal : ℚ
  skewFactor : ℚ
  maxInventory : ℚ
  minInventory : ℚ
deriving DecidableEq, Repr

/-- `calculateBaseSpread(marketData)`: base spread scaled by a volume factor
clamped into [0.5, 2]. -/
def calculateBaseSpread (cfg : SpreadConfig) (m : MarketData) : ℚ :=
  let volumeFactor := max (1/2) (min 2 (1000000 / (m.volume24h + 1)))
  cfg.baseSpread * volumeFactor

/-- `calculateVolatilityAdjustment(volatility)`: dead zone below 1%, linear
above it. -/
def calculateVolatilityAdjustment (cfg : SpreadConfig) (volatility : ℚ) : ℚ :=
  let normalizedVolatility := max 0 (volatility - 1/100)
  normalizedVolatility * cfg.volatilityMultiplier

/-- `calculateInventorySkew(inventoryState)`:
`(inventoryRatio - 0.5) * inventorySkewMultiplier * 2`. -/
def calculateInventorySkew (cfg : SpreadConfig) (inv : InventoryState) : ℚ :=
  let deviation := inv.inventoryRatioVal - 1/2
  deviation * cfg.inventorySkewMultiplier * 2

/-- The `totalSpread` local of `calculateOptimalSpread`:
`clamp(base + volatilityAdjustment, minSpread, maxSpread)`. -/
def totalSpreadOf (cfg : SpreadConfig) (m : MarketData) : ℚ :=
  min (max (calculateBaseSpread cfg m + calculateVolatilityAdjustment cfg m.volatility)
        cfg.minSpread)
    cfg.maxSpread

/-- The `{ bidSpread, askSpread }` result record. -/
structure SpreadPair where
  bidSpread : ℚ
  askSpread : ℚ
deriving DecidableEq, Repr

/-- `calculateOptimalSpread(marketData, inventoryState)`. -/
def calculateOptimalSpread (cfg : SpreadConfig) (m : MarketData)
    (inv : InventoryState) : SpreadPair :=
  let inventorySkew := calculateInventorySkew cfg inv
  let halfSpread := totalSpreadOf cfg m / 2
  let bidSpread := halfSpread * (1 + inventorySkew)
  let askSpread := halfSpread * (1 - inventorySkew)
  ⟨max bidSpread (cfg.minSpread / 2), max askSpread (cfg.minSpread / 2)⟩

/-! ## Coordinator (src class MarketMaker) -/

/-- `OrderStatus`; the source's string status for a partly filled order is
modelled by the constructor `partFilled`. -/
inductive OrderStatus where
  | pending
  | partFilled
  | filled
  | cancelled
  | rejected
deriving DecidableEq, Repr

/-- `Order` record (the `createdAt`/`updatedAt` clock fields are external
capabilities and carry no verified property, so they are omitted). -/
structure Order where
  id : String
  side : Side
  price : ℚ
  size : ℚ
  filledSize : ℚ
  status : OrderStatus
deriving DecidableEq, Repr

/-- Mutable fields of class `MarketMaker` that `processFill` touches; the
open-order `Map` is modelled as an association list keyed by order id. -/
structure MarketMaker where
  inventoryController : InventoryController
  activeOrders : List (String × Order)
  tradeHistory : List Trade
  totalVolume : ℚ
  realizedPnL : ℚ
deriving DecidableEq, Repr

/-- `getAvgEntryPrice()`: size-weighted average price over the buy trades of
the coordinator's own history. -/
def MarketMaker.getAvgEntryPrice (mm : MarketMaker) : ℚ :=
  if mm.tradeHistory.length = 0 then 0
  else
    let acc := mm.tradeHistory.foldl
      (fun acc t => if t.side = .buy then (acc.1 + t.price * t.size, acc.2 + t.size) else acc)
      ((0 : ℚ), (0 : ℚ))
    if 0 < acc.2 then acc.1 / acc.2 else 0

/-- `updateRealizedPnL(trade)`: only position-reducing/closing trades
contribute realized P&L. -/
def MarketMaker.updateRealizedPnL (mm : MarketMaker) (trade : Trade) : MarketMaker :=
  let position := mm.inventoryController.calculatePosition trade.price
  if (trade.side = .sell ∧ 0 ≤ position.baseBalance) ∨
     (trade.side = .buy ∧ position.baseBalance ≤ 0) then
    let pnl :=
      match trade.side with
      | .sell => (trade.price - mm.getAvgEntryPrice) * trade.size
      | .buy => (mm.getAvgEntryPrice - trade.price) * trade.size
    { mm with realizedPnL := mm.realizedPnL + (pnl - trade.fee) }
  else mm

/-- `processFill(orderId, filledSize, fillPrice)`: returns `null` and leaves
everything untouched when the order id is unknown; otherwise updates the
order, derives a `Trade` (its id and timestamp come from the injected
capabilities `newTradeId` and `now`), feeds it to the inventory controller,
appends it to the history, and accumulates volume and realized P&L. -/
def MarketMaker.processFill (mm : MarketMaker) (orderId : String)
    (filledSize fillPrice : ℚ) (newTradeId : String) (now : ℚ) :
    Option Trade × MarketMaker :=
  match mm.activeOrders.lookup orderId with
  | none => (none, mm)
  | some order =>
    let order1 := { order with filledSize := order.filledSize + filledSize }
    let mm1 :=
      if order1.size ≤ order1.filledSize then
        let updated := mm.activeOrders.map (fun kv =>
          if kv.1 = orderId then (kv.1, { order1 with status := OrderStatus.filled }) else kv)
        { mm with activeOrders := updated.filter (fun kv => kv.1 ≠ orderId) }
      else
        let updated := mm.activeOrders.map (fun kv =>
          if kv.1 = orderId then (kv.1, { order1 with status := OrderStatus.partFilled }) else kv)
        { mm with activeOrders := updated }
    let trade : Trade := ⟨newTradeId, order.side, fillPrice, filledSize, now,
                          filledSize * fillPrice * (1/1000)⟩
    let mm2 := { mm1 with
      inventoryController := mm1.inventoryController.updateInventory trade,
      tradeHistory := mm1.tradeHistory ++ [trade],
      totalVolume := mm1.totalVolume + filledSize * fillPrice }
    let mm3 := mm2.updateRealizedPnL trade
    (some trade, mm3)

/-! ## Concrete sample values used by witnesses and counterexamples -/

/-- The pool of the spec's worked example: reserves (10000, 15000), fee 0.3%. -/
def examplePool : Pool := ⟨10000, 15000, 11247, 3/1000⟩

/-- A fee-free pool with equal reserves. -/
def feeFreePool : Pool := ⟨100, 100, 50, 0⟩

/-- An empty (uninitialized) real-valued pool with the default 0.3% fee. -/
noncomputable def freshPoolR : PoolR := ⟨0, 0, 0, 3/1000⟩

/-- The spec's example inventory configuration. -/
def invCfg : InventoryConfig := ⟨0, 1000, -1000, 3/10, 3/2⟩

/-- A flat inventory controller. -/
def invCtrl : InventoryController := ⟨invCfg, 0, [], 0⟩

/-- The spec's limit-breaching buy of size 1200. -/
def bigBuy : Trade := ⟨"t1", .buy, 1, 1200, 0, 0⟩

/-- A controller short 10 units with average entry price 5. -/
def flipCtrl : InventoryController := ⟨invCfg, -10, [], 5⟩

/-- A buy of 30 at price 2: flips the `flipCtrl` position short-to-long. -/
def flipBuy : Trade := ⟨"t2", .buy, 2, 30, 0, 0⟩

/-- A buy of 10 at price 3 from a flat book. -/
def startBuy : Trade := ⟨"t3", .buy, 3, 10, 0, 0⟩

/-- The default spread configuration of the source. -/
def defaultSpreadCfg : SpreadConfig := ⟨2/1000, 5/10000, 2/100, 2, 1/2⟩

/-- A spread configuration whose inventory-skew multiplier is zero. -/
def zeroSkewCfg : SpreadConfig := ⟨2/1000, 1/100, 2/100, 2, 0⟩

/-- A spread configuration with `minSpread = maxSpread = 1%` and the default
skew multiplier 0.5. -/
def tightCfg : SpreadConfig := ⟨2/1000, 1/100, 1/100, 2, 1/2⟩

/-- The market snapshot of the spec's quick-start example. -/
def exampleMarket : MarketData := ⟨"TOKEN", 3/2, 149/100, 151/100, 1000000, 8/5, 7/5, 5/100⟩

/-- An inventory state 75% toward the maximum. -/
def longState : InventoryState := ⟨500, 0, 3/4, 0, 1000, -1000⟩

/-- An inventory state saturated at the maximum (ratio 1). -/
def maxLongState : InventoryState := ⟨1000, 0, 1, 0, 1000, -1000⟩

/-- A resting sell order. -/
def sampleOrder : Order := ⟨"ord1", .sell, 3/2, 100, 0, .pending⟩

/-- A coordinator with one open order and no history. -/
def sampleMM : MarketMaker := ⟨invCtrl, [("ord1", sampleOrder)], [], 0, 0⟩

/-! ## Claim C1: constant-product invariant across `executeSwap` -/

/-- C1 (amended): for every successful `executeSwap` on a pool with positive
reserves, `amountIn > 0` and `fee < 1`, the reserve product after the swap is
EXACTLY the product before it, for every fee (the fee is deducted from the
input and discarded, never accrued to the reserves, so the constant product is
preserved, and in particular non-decreasing; it never strictly increases). -/
theorem executeSwap_product_preserved (p : Pool) (x minOut : ℚ) (t : Token)
    (hA : 0 < p.tokenAReserve) (hB : 0 < p.tokenBReserve) (hx : 0 < x)
    (hf1 : p.fee < 1)
    (hok : (p.executeSwap x t minOut).1.isOk = true) :
    (p.executeSwap x t minOut).2.tokenAReserve *
        (p.executeSwap x t minOut).2.tokenBReserve
      = p.tokenAReserve * p.tokenBReserve := by
  have hx' : ¬ x ≤ 0 := not_le.mpr hx
  have hxf : 0 < x - x * p.fee := by nlinarith
  have hsim : p.simulateSwap x t = .ok (p.swapResultOf x t) := by
    simp [Pool.simulateSwap, hx']
  have hfee : (p.swapResultOf x t).fee = x * p.fee := rfl
  cases t with
  | A =>
    have hd : p.tokenAReserve + (x - x * p.fee) ≠ 0 := by positivity
    have hout : (p.swapResultOf x Token.A).amountOut
        = p.tokenBReserve -
            p.tokenAReserve * p.tokenBReserve / (p.tokenAReserve + (x - x * p.fee)) := rfl
    simp only [Pool.executeSwap, hsim] at hok ⊢
    rcases lt_or_le (p.swapResultOf x Token.A).amountOut minOut with hlt | hge
    · rw [if_pos hlt] at hok
      exact Bool.noConfusion hok
    · rw [if_neg (not_lt.mpr hge)]
      dsimp only
      rw [hfee, hout]
      field_simp
  | B =>
    have hd : p.tokenBReserve + (x - x * p.fee) ≠ 0 := by positivity
    have hout : (p.swapResultOf x Token.B).amountOut
        = p.tokenAReserve -
            p.tokenAReserve * p.tokenBReserve / (p.tokenBReserve + (x - x * p.fee)) := rfl
    simp only [Pool.executeSwap, hsim] at hok ⊢
    rcases lt_or_le (p.swapResultOf x Token.B).amountOut minOut with hlt | hge
    · rw [if_pos hlt] at hok
      exact Bool.noConfusion hok
    · rw [if_neg (not_lt.mpr hge)]
      dsimp only
      rw [hfee, hout]
      field_simp

/-- C1 counterexample to the claim as stated: on the spec's own example
(reserves (10000, 15000), fee 0.003 > 0, swap 100 of A) the post-swap reserve
product EQUALS the pre-swap product exactly — it does not strictly increase. -/
theorem executeSwap_product_no_strict_increase :
    0 < examplePool.fee ∧
    (examplePool.executeSwap 100 .A 0).1.isOk = true ∧
    (examplePool.executeSwap 100 .A 0).2.tokenAReserve *
        (examplePool.executeSwap 100 .A 0).2.tokenBReserve
      = examplePool.tokenAReserve * examplePool.tokenBReserve ∧
    ¬ (examplePool.tokenAReserve * examplePool.tokenBReserve <
       (examplePool.executeSwap 100 .A 0).2.tokenAReserve *
         (examplePool.executeSwap 100 .A 0).2.tokenBReserve) := by
  norm_num [Pool.executeSwap, Pool.simulateSwap, Pool.swapResultOf, Pool.getSpotPrice,
    examplePool, Except.isOk, Except.toBool]

/-- C1 witness: the amended theorem applied to the concrete example pool. -/
theorem executeSwap_product_preserved_witness :
    (examplePool.executeSwap 100 .A 0).2.tokenAReserve *
        (examplePool.executeSwap 100 .A 0).2.tokenBReserve
      = examplePool.tokenAReserve * examplePool.tokenBReserve :=
  executeSwap_product_preserved examplePool 100 0 .A (by norm_num [examplePool])
    (by norm_num [examplePool]) (by norm_num) (by norm_num [examplePool])
    (by norm_num [Pool.executeSwap, Pool.simulateSwap, Pool.swapResultOf, Pool.getSpotPrice,
      examplePool, Except.isOk, Except.toBool])

/-! ## Claim C5: slippage rejection leaves the pool untouched -/

/-- C5: whenever `simulateSwap` succeeds with result `r`, `executeSwap` with a
floor above `r.amountOut` fails with the slippage error and returns the pool
exactly as it was (no partial mutation), and with a floor at or below
`r.amountOut` it returns the very result `simulateSwap` computed together
with the mutated reserves. -/
theorem executeSwap_slippage_characterization (p : Pool) (x minOut : ℚ)
    (t : Token) (r : SwapResult) (h : p.simulateSwap x t = .ok r) :
    (r.amountOut < minOut →
        p.executeSwap x t minOut = (.error .slippageExceeded, p)) ∧
    (minOut ≤ r.amountOut →
        p.executeSwap x t minOut =
          (.ok r,
           match t with
           | .A => { p with tokenAReserve := p.tokenAReserve + (x - r.fee),
                            tokenBReserve := p.tokenBReserve - r.amountOut }
           | .B => { p with tokenBReserve := p.tokenBReserve + (x - r.fee),
                            tokenAReserve := p.tokenAReserve - r.amountOut })) := by
  constructor
  · intro hlt
    simp only [Pool.executeSwap, h]
    rw [if_pos hlt]
  · intro hge
    simp only [Pool.executeSwap, h]
    rw [if_neg (not_lt.mpr hge)]
    cases t <;> rfl

/-- C5 witness: on the fee-free pool (100, 100), a swap of 100 A yields 50,
so a floor of 60 makes `executeSwap` fail with `slippageExceeded` and leave
the pool unchanged. -/
theorem executeSwap_slippage_characterization_witness :
    feeFreePool.executeSwap 100 .A 60 = (.error .slippageExceeded, feeFreePool) :=
  (executeSwap_slippage_characterization feeFreePool 100 60 .A ⟨100, 50, 1/2, 0, 1/4⟩
    (by norm_num [Pool.simulateSwap, Pool.swapResultOf, Pool.getSpotPrice, feeFreePool])).1
    (by norm_num)

/-! ## Claim C8: `getAmountIn` inverts `getAmountOut` exactly -/

/-- C8: for a pool with positive reserves and `fee ∈ [0, 1)`, and any input
`x > 0`, feeding the output of `getAmountOut(x, 'A')` into
`getAmountIn(·, 'B')` reconstructs `x` exactly (the arithmetic here is exact
rational arithmetic). -/
theorem getAmountIn_getAmountOut_roundTrip (p : Pool) (x y : ℚ)
    (hA : 0 < p.tokenAReserve) (hB : 0 < p.tokenBReserve)
    (hf0 : 0 ≤ p.fee) (hf1 : p.fee < 1) (hx : 0 < x)
    (h : p.getAmountOut x .A = .ok y) :
    p.getAmountIn y .B = .ok x := by
  have hx' : ¬ x ≤ 0 := not_le.mpr hx
  have hxf : 0 < x - x * p.fee := by nlinarith
  have hd : 0 < p.tokenAReserve + (x - x * p.fee) := by linarith
  simp only [Pool.getAmountOut, Pool.simulateSwap, if_neg hx', Except.map,
    Except.ok.injEq] at h
  have hy : y = p.tokenBReserve -
      p.tokenAReserve * p.tokenBReserve / (p.tokenAReserve + (x - x * p.fee)) := by
    rw [← h]; rfl
  have hfrac : p.tokenAReserve * p.tokenBReserve / (p.tokenAReserve + (x - x * p.fee))
      < p.tokenBReserve := by
    rw [div_lt_iff₀ hd]
    nlinarith
  have hfrac0 : 0 < p.tokenAReserve * p.tokenBReserve /
      (p.tokenAReserve + (x - x * p.fee)) := by positivity
  have hy0 : 0 < y := by rw [hy]; linarith
  have hyB : y < p.tokenBReserve := by rw [hy]; linarith
  simp only [Pool.getAmountIn, if_neg (not_le.mpr hy0)]
  rw [if_neg (not_le.mpr hyB)]
  rw [Except.ok.injEq, hy]
  have h1f : (1 : ℚ) - p.fee ≠ 0 := by linarith
  field_simp
  ring

/-- C8 witness: the round trip on the example pool (10000, 15000, fee 0.3%)
reconstructs the input 100 exactly. -/
theorem getAmountIn_getAmountOut_roundTrip_witness :
    examplePool.getAmountIn (14955000/100997) .B = .ok 100 :=
  getAmountIn_getAmountOut_roundTrip examplePool 100 (14955000/100997)
    (by norm_num [examplePool]) (by norm_num [examplePool]) (by norm_num [examplePool])
    (by norm_num [examplePool]) (by norm_num)
    (by norm_num [Pool.getAmountOut, Pool.simulateSwap, Pool.swapResultOf,
      Pool.getSpotPrice, examplePool, Except.map])

/-! ## Claim C9: `removeLiquidity` burns pro rata and preserves the price -/

/-- C9: for a pool with a positive A reserve and `0 < lpTokens < supply`,
`removeLiquidity` succeeds, pays out the pro-rata share of both reserves,
burns the tokens from the supply, and leaves the spot price
`tokenBReserve / tokenAReserve` exactly unchanged. -/
theorem removeLiquidity_pro_rata_price_invariant (p : Pool) (lp : ℚ)
    (hA : 0 < p.tokenAReserve) (h0 : 0 < lp) (hlt : lp < p.lpTokenSupply) :
    (p.removeLiquidity lp).1
        = .ok ⟨lp, p.tokenAReserve * (lp / p.lpTokenSupply),
               p.tokenBReserve * (lp / p.lpTokenSupply), 0⟩ ∧
    (p.removeLiquidity lp).2.lpTokenSupply = p.lpTokenSupply - lp ∧
    (p.removeLiquidity lp).2.getPrice = p.getPrice := by
  have hS : 0 < p.lpTokenSupply := h0.trans hlt
  have hq1 : lp / p.lpTokenSupply < 1 := (div_lt_one hS).mpr hlt
  have hguard : ¬ (lp ≤ 0 ∨ lp > p.lpTokenSupply) := by
    push_neg
    exact ⟨h0, hlt.le⟩
  simp only [Pool.removeLiquidity, if_neg hguard]
  refine ⟨trivial, trivial, ?_⟩
  have hA' : 0 < p.tokenAReserve - p.tokenAReserve * (lp / p.lpTokenSupply) := by
    nlinarith
  simp only [Pool.getPrice]
  rw [if_neg hA'.ne', if_neg hA.ne']
  rw [div_eq_div_iff hA'.ne' hA.ne']
  ring

/-- C9 witness: burning 247 of the 11247 outstanding LP tokens of the example
pool pays out pro rata and leaves the price unchanged. -/
theorem removeLiquidity_pro_rata_price_invariant_witness :
    (examplePool.removeLiquidity 247).1
        = .ok ⟨247, examplePool.tokenAReserve * (247 / examplePool.lpTokenSupply),
               examplePool.tokenBReserve * (247 / examplePool.lpTokenSupply), 0⟩ ∧
    (examplePool.removeLiquidity 247).2.lpTokenSupply = examplePool.lpTokenSupply - 247 ∧
    (examplePool.removeLiquidity 247).2.getPrice = examplePool.getPrice :=
  removeLiquidity_pro_rata_price_invariant examplePool 247
    (by norm_num [examplePool]) (by norm_num) (by norm_num [examplePool])

/-! ## Claim C2: inventory is hard-clamped into its limits -/

/-- `updateAvgEntryPrice` never touches the configuration. -/
theorem updateAvgEntryPrice_config (c : InventoryController) (price size : ℚ)
    (side : Side) :
    (c.updateAvgEntryPrice price size side).config = c.config := by
  unfold InventoryController.updateAvgEntryPrice
  split_ifs <;> rfl

/-- `updateAvgEntryPrice` never touches the inventory. -/
theorem updateAvgEntryPrice_currentInventory (c : InventoryController)
    (price size : ℚ) (side : Side) :
    (c.updateAvgEntryPrice price size side).currentInventory = c.currentInventory := by
  unfold InventoryController.updateAvgEntryPrice
  split_ifs <;> rfl

/-- C2: for every trade and every controller whose limits are ordered
(`minInventory ≤ maxInventory`), the inventory after `updateInventory` lies
in `[minInventory, maxInventory]`: overshoot is capped by the final clamp,
never thrown (`updateInventory` is a total function in this model). -/
theorem updateInventory_within_limits (c : InventoryController) (t : Trade)
    (h : c.config.minInventory ≤ c.config.maxInventory) :
    c.config.minInventory ≤ (c.updateInventory t).currentInventory ∧
    (c.updateInventory t).currentInventory ≤ c.config.maxInventory := by
  have key : ∀ (d : InventoryController) (prev : ℚ), d.config = c.config →
      c.config.minInventory ≤ (d.enforceInventoryLimits prev).currentInventory ∧
      (d.enforceInventoryLimits prev).currentInventory ≤ c.config.maxInventory := by
    intro d prev hcfg
    unfold InventoryController.enforceInventoryLimits
    split_ifs with h1 h2
    · refine ⟨?_, ?_⟩
      · show c.config.minInventory ≤ d.config.maxInventory
        rw [hcfg]
        exact h
      · show d.config.maxInventory ≤ c.config.maxInventory
        rw [hcfg]
    · refine ⟨?_, ?_⟩
      · show c.config.minInventory ≤ d.config.minInventory
        rw [hcfg]
      · show d.config.minInventory ≤ c.config.maxInventory
        rw [hcfg]
        exact h
    · rw [hcfg] at h1 h2
      exact ⟨not_lt.mp h2, not_lt.mp h1⟩
  unfold InventoryController.updateInventory
  apply key
  cases t.side <;>
  · dsimp only
    split_ifs <;> simp [updateAvgEntryPrice_config]

/-- C2 witness: the spec's scenario — a buy of 1200 against limits
[−1000, 1000] lands (clamped) inside the limits. -/
theorem updateInventory_within_limits_witness :
    invCtrl.config.minInventory ≤ (invCtrl.updateInventory bigBuy).currentInventory ∧
    (invCtrl.updateInventory bigBuy).currentInventory ≤ invCtrl.config.maxInventory :=
  updateInventory_within_limits invCtrl bigBuy (by norm_num [invCtrl, invCfg])

/-! ## Claim C7: the average-entry-price update -/

/-- The clamp never touches the average entry price. -/
theorem enforceInventoryLimits_avgEntryPrice (c : InventoryController) (prev : ℚ) :
    (c.enforceInventoryLimits prev).avgEntryPrice = c.avgEntryPrice := by
  unfold InventoryController.enforceInventoryLimits
  split_ifs <;> rfl

/-- C7 (amended): the stored average entry price changes only when
(side = buy and post-trade inventory > 0) or (side = sell and post-trade
inventory < 0).  On a sell it becomes
`(oldAvg * |preInventory| + price*size) / |postInventory|` — the
size-weighted average over magnitudes, as the claim states — but on a buy the
source uses the SIGNED pre-trade inventory, so it becomes
`(oldAvg * preInventory + price*size) / postInventory`, which differs from
the claimed magnitude-weighted average whenever the buy flips a short
position through zero; in all other cases the price is left unchanged.
(The post-trade inventory here is pre-clamp, matching the source's call
order.) -/
theorem updateInventory_avgEntryPrice (c : InventoryController) (t : Trade) :
    (t.side = .buy → 0 < c.currentInventory + t.size →
        (c.updateInventory t).avgEntryPrice =
          (c.avgEntryPrice * c.currentInventory + t.price * t.size) /
            (c.currentInventory + t.size)) ∧
    (t.side = .sell → c.currentInventory - t.size < 0 →
        (c.updateInventory t).avgEntryPrice =
          (c.avgEntryPrice * |c.currentInventory| + t.price * t.size) /
            |c.currentInventory - t.size|) ∧
    ((t.side = .buy → c.currentInventory + t.size ≤ 0) →
     (t.side = .sell → 0 ≤ c.currentInventory - t.size) →
        (c.updateInventory t).avgEntryPrice = c.avgEntryPrice) := by
  refine ⟨?_, ?_, ?_⟩
  · intro hside hpos
    simp only [InventoryController.updateInventory, hside]
    rw [enforceInventoryLimits_avgEntryPrice]
    split_ifs <;>
    · dsimp only
      unfold InventoryController.updateAvgEntryPrice
      rw [if_pos ⟨rfl, hpos⟩]
      dsimp only
      ring_nf
  · intro hside hneg
    simp only [InventoryController.updateInventory, hside]
    rw [enforceInventoryLimits_avgEntryPrice]
    have hnb : ¬ (Side.sell = Side.buy ∧
        0 < ({ c with currentInventory := c.currentInventory - t.size } :
          InventoryController).currentInventory) := by
      rintro ⟨hcontra, -⟩
      exact Side.noConfusion hcontra
    split_ifs <;>
    · dsimp only
      unfold InventoryController.updateAvgEntryPrice
      rw [if_neg hnb, if_pos ⟨rfl, hneg⟩]
      dsimp only
      have harg : c.currentInventory - t.size + t.size = c.currentInventory := by ring
      rw [harg]
  · intro hbuy hsell
    cases htr : t.side with
    | buy =>
      have hle : c.currentInventory + t.size ≤ 0 := hbuy htr
      simp only [InventoryController.updateInventory, htr]
      rw [enforceInventoryLimits_avgEntryPrice]
      have hn1 : ¬ (Side.buy = Side.buy ∧
          0 < ({ c with currentInventory := c.currentInventory + t.size } :
            InventoryController).currentInventory) := by
        rintro ⟨-, hcontra⟩
        exact absurd hcontra (not_lt.mpr hle)
      have hn2 : ¬ (Side.buy = Side.sell ∧
          (({ c with currentInventory := c.currentInventory + t.size } :
            InventoryController).currentInventory < 0)) := by
        rintro ⟨hcontra, -⟩
        exact Side.noConfusion hcontra
      split_ifs <;>
      · dsimp only
        unfold InventoryController.updateAvgEntryPrice
        rw [if_neg hn1, if_neg hn2]
    | sell =>
      have hge : 0 ≤ c.currentInventory - t.size := hsell htr
      simp only [InventoryController.updateInventory, htr]
      rw [enforceInventoryLimits_avgEntryPrice]
      have hn1 : ¬ (Side.sell = Side.buy ∧
          0 < ({ c with currentInventory := c.currentInventory - t.size } :
            InventoryController).currentInventory) := by
        rintro ⟨hcontra, -⟩
        exact Side.noConfusion hcontra
      have hn2 : ¬ (Side.sell = Side.sell ∧
          (({ c with currentInventory := c.currentInventory - t.size } :
            InventoryController).currentInventory < 0)) := by
        rintro ⟨-, hcontra⟩
        exact absurd hcontra (not_lt.mpr hge)
      split_ifs <;>
      · dsimp only
        unfold InventoryController.updateAvgEntryPrice
        rw [if_neg hn1, if_neg hn2]

/-- C7 counterexample to the claim as stated: a buy of 30 at price 2 against a
short position of −10 with average entry price 5 flips the position to +20;
the source computes `(5*(−10) + 2*30)/20 = 1/2`, while the claimed
magnitude-weighted formula gives `(5*|−10| + 2*30)/|20| = 11/2`. -/
theorem updateInventory_avgEntryPrice_counterexample :
    (flipCtrl.updateInventory flipBuy).avgEntryPrice = 1/2 ∧
    (flipCtrl.avgEntryPrice * |flipCtrl.currentInventory| +
        flipBuy.price * flipBuy.size) /
      |flipCtrl.currentInventory + flipBuy.size| = 11/2 ∧
    (1/2 : ℚ) ≠ 11/2 := by
  refine ⟨?_, by norm_num [flipCtrl, flipBuy], by norm_num⟩
  norm_num [InventoryController.updateInventory,
    InventoryController.updateAvgEntryPrice, InventoryController.enforceInventoryLimits,
    flipCtrl, flipBuy, invCfg]

/-- C7 witness: a buy of 10 at price 3 from a flat long book updates the
average entry price by the stated weighted-average formula. -/
theorem updateInventory_avgEntryPrice_witness :
    (invCtrl.updateInventory startBuy).avgEntryPrice =
      (invCtrl.avgEntryPrice * invCtrl.currentInventory +
        startBuy.price * startBuy.size) /
        (invCtrl.currentInventory + startBuy.size) :=
  (updateInventory_avgEntryPrice invCtrl startBuy).1 rfl
    (by norm_num [invCtrl, startBuy])

/-! ## Claims C3 and C4: spread skew sign and spread bounds -/

/-- The bid spread unfolded. -/
theorem bidSpread_eq (cfg : SpreadConfig) (m : MarketData) (inv : InventoryState) :
    (calculateOptimalSpread cfg m inv).bidSpread =
      max (totalSpreadOf cfg m / 2 * (1 + calculateInventorySkew cfg inv))
        (cfg.minSpread / 2) := rfl

/-- The ask spread unfolded. -/
theorem askSpread_eq (cfg : SpreadConfig) (m : MarketData) (inv : InventoryState) :
    (calculateOptimalSpread cfg m inv).askSpread =
      max (totalSpreadOf cfg m / 2 * (1 - calculateInventorySkew cfg inv))
        (cfg.minSpread / 2) := rfl

/-- The clamped total spread is at least `minSpread` whenever
`minSpread ≤ maxSpread`. -/
theorem minSpread_le_totalSpreadOf (cfg : SpreadConfig) (m : MarketData)
    (hmm : cfg.minSpread ≤ cfg.maxSpread) :
    cfg.minSpread ≤ totalSpreadOf cfg m :=
  le_min (le_max_right _ _) hmm

/-- C3 (amended): with `0 < minSpread ≤ maxSpread` AND a strictly positive
`inventorySkewMultiplier` (the claim as stated quantifies over all
configurations, which fails, e.g., for multiplier 0), the skew sign property
holds: ratio > 0.5 ⇒ bidSpread > askSpread, ratio < 0.5 ⇒ askSpread >
bidSpread, ratio = 0.5 ⇒ bidSpread = askSpread — for every market snapshot
and every inventory state. -/
theorem calculateOptimalSpread_skew_sign (cfg : SpreadConfig) (m : MarketData)
    (inv : InventoryState)
    (hmin : 0 < cfg.minSpread) (hmm : cfg.minSpread ≤ cfg.maxSpread)
    (hmult : 0 < cfg.inventorySkewMultiplier) :
    (1/2 < inv.inventoryRatioVal →
        (calculateOptimalSpread cfg m inv).askSpread <
          (calculateOptimalSpread cfg m inv).bidSpread) ∧
    (inv.inventoryRatioVal < 1/2 →
        (calculateOptimalSpread cfg m inv).bidSpread <
          (calculateOptimalSpread cfg m inv).askSpread) ∧
    (inv.inventoryRatioVal = 1/2 →
        (calculateOptimalSpread cfg m inv).bidSpread =
          (calculateOptimalSpread cfg m inv).askSpread) := by
  rw [bidSpread_eq, askSpread_eq]
  have htot := minSpread_le_totalSpreadOf cfg m hmm
  set s := calculateInventorySkew cfg inv with hsdef
  set h := totalSpreadOf cfg m / 2 with hhdef
  have hmh : cfg.minSpread / 2 ≤ h := by rw [hhdef]; linarith
  have hm0 : 0 < cfg.minSpread / 2 := by linarith
  have h0 : 0 < h := lt_of_lt_of_le hm0 hmh
  refine ⟨?_, ?_, ?_⟩
  · intro hr
    have hs : 0 < s := by
      rw [hsdef]
      unfold calculateInventorySkew
      have := mul_pos (mul_pos (sub_pos.mpr hr) hmult) (by norm_num : (0:ℚ) < 2)
      linarith
    have hbid : max (h * (1 + s)) (cfg.minSpread / 2) = h * (1 + s) :=
      max_eq_left (by nlinarith)
    rw [hbid]
    exact max_lt (by nlinarith) (by nlinarith)
  · intro hr
    have hs : s < 0 := by
      rw [hsdef]
      unfold calculateInventorySkew
      have := mul_pos (mul_pos (sub_pos.mpr hr) hmult) (by norm_num : (0:ℚ) < 2)
      nlinarith
    have hask : max (h * (1 - s)) (cfg.minSpread / 2) = h * (1 - s) :=
      max_eq_left (by nlinarith)
    rw [hask]
    exact max_lt (by nlinarith) (by nlinarith)
  · intro hr
    have hs : s = 0 := by
      rw [hsdef]
      unfold calculateInventorySkew
      rw [hr]
      ring
    rw [hs]
    norm_num

/-- C3 counterexample to the claim as stated: with the inventory-skew
multiplier configured to 0 (and `minSpread = 1% > 0`), a ratio of 3/4 > 1/2
still produces `bidSpread = askSpread`, not `bidSpread > askSpread`. -/
theorem calculateOptimalSpread_skew_sign_counterexample :
    0 < zeroSkewCfg.minSpread ∧ 1/2 < longState.inventoryRatioVal ∧
    (calculateOptimalSpread zeroSkewCfg exampleMarket longState).bidSpread =
      (calculateOptimalSpread zeroSkewCfg exampleMarket longState).askSpread := by
  norm_num [calculateOptimalSpread, totalSpreadOf, calculateBaseSpread,
    calculateVolatilityAdjustment, calculateInventorySkew, zeroSkewCfg,
    exampleMarket, longState]

/-- C3 witness: the amended theorem at the default configuration and a 75%
long inventory state. -/
theorem calculateOptimalSpread_skew_sign_witness :
    (calculateOptimalSpread defaultSpreadCfg exampleMarket longState).askSpread <
      (calculateOptimalSpread defaultSpreadCfg exampleMarket longState).bidSpread :=
  (calculateOptimalSpread_skew_sign defaultSpreadCfg exampleMarket longState
    (by norm_num [defaultSpreadCfg]) (by norm_num [defaultSpreadCfg])
    (by norm_num [defaultSpreadCfg])).1 (by norm_num [longState])

/-- C4 (amended): per-side floors hold as claimed — each of `bidSpread` and
`askSpread` is at least `minSpread / 2` — but the combined spread is NOT
bounded by `maxSpread`: the floors can push the sum past it.  Under
`|inventorySkewMultiplier| ≤ 1` (so the skew stays in [−1, 1] for ratios in
[0, 1]) the sum is bounded by `maxSpread + minSpread / 2`. -/
theorem calculateOptimalSpread_bounds (cfg : SpreadConfig) (m : MarketData)
    (inv : InventoryState)
    (hmin : 0 < cfg.minSpread) (hmm : cfg.minSpread ≤ cfg.maxSpread)
    (hr0 : 0 ≤ inv.inventoryRatioVal) (hr1 : inv.inventoryRatioVal ≤ 1)
    (hmult : |cfg.inventorySkewMultiplier| ≤ 1) :
    cfg.minSpread / 2 ≤ (calculateOptimalSpread cfg m inv).bidSpread ∧
    cfg.minSpread / 2 ≤ (calculateOptimalSpread cfg m inv).askSpread ∧
    (calculateOptimalSpread cfg m inv).bidSpread +
        (calculateOptimalSpread cfg m inv).askSpread
      ≤ cfg.maxSpread + cfg.minSpread / 2 := by
  rw [bidSpread_eq, askSpread_eq]
  refine ⟨le_max_right _ _, le_max_right _ _, ?_⟩
  have htot := minSpread_le_totalSpreadOf cfg m hmm
  have htmax : totalSpreadOf cfg m ≤ cfg.maxSpread := min_le_right _ _
  obtain ⟨hm1, hm2⟩ := abs_le.mp hmult
  have hd1 : -(1/2) ≤ inv.inventoryRatioVal - 1/2 := by linarith
  have hd2 : inv.inventoryRatioVal - 1/2 ≤ 1/2 := by linarith
  have hs1 : -1 ≤ calculateInventorySkew cfg inv := by
    unfold calculateInventorySkew
    have k3 : 0 ≤ (1/2 - (inv.inventoryRatioVal - 1/2)) *
        (1 - cfg.inventorySkewMultiplier) := mul_nonneg (by linarith) (by linarith)
    have k4 : 0 ≤ (1/2 + (inv.inventoryRatioVal - 1/2)) *
        (1 + cfg.inventorySkewMultiplier) := mul_nonneg (by linarith) (by linarith)
    nlinarith
  have hs2 : calculateInventorySkew cfg inv ≤ 1 := by
    unfold calculateInventorySkew
    have k1 : 0 ≤ (1/2 - (inv.inventoryRatioVal - 1/2)) *
        (1 + cfg.inventorySkewMultiplier) := mul_nonneg (by linarith) (by linarith)
    have k2 : 0 ≤ (1/2 + (inv.inventoryRatioVal - 1/2)) *
        (1 - cfg.inventorySkewMultiplier) := mul_nonneg (by linarith) (by linarith)
    nlinarith
  set s := calculateInventorySkew cfg inv
  set h := totalSpreadOf cfg m / 2 with hhdef
  have hmh : cfg.minSpread / 2 ≤ h := by rw [hhdef]; linarith
  have h0 : 0 < h := by linarith
  have hA0 : 0 ≤ h * (1 + s) := mul_nonneg h0.le (by linarith)
  have hB0 : 0 ≤ h * (1 - s) := mul_nonneg h0.le (by linarith)
  have hAB : h * (1 + s) + h * (1 - s) ≤ cfg.maxSpread := by
    have : h * (1 + s) + h * (1 - s) = totalSpreadOf cfg m := by
      rw [hhdef]; ring
    rw [this]
    exact htmax
  rcases le_total (h * (1 + s)) (cfg.minSpread / 2) with hA | hA <;>
    rcases le_total (h * (1 - s)) (cfg.minSpread / 2) with hB | hB
  · rw [max_eq_right hA, max_eq_right hB]
    linarith
  · rw [max_eq_right hA, max_eq_left hB]
    linarith
  · rw [max_eq_left hA, max_eq_right hB]
    linarith
  · rw [max_eq_left hA, max_eq_left hB]
    linarith

/-- C4 counterexample to the claim as stated: with the default skew
multiplier 0.5, `minSpread = maxSpread = 1%` and a saturated inventory
(ratio 1), the floored ask spread pushes the total to 1.25%, exceeding
`maxSpread`. -/
theorem calculateOptimalSpread_bounds_counterexample :
    0 < tightCfg.minSpread ∧ tightCfg.minSpread ≤ tightCfg.maxSpread ∧
    0 ≤ maxLongState.inventoryRatioVal ∧ maxLongState.inventoryRatioVal ≤ 1 ∧
    ¬ ((calculateOptimalSpread tightCfg exampleMarket maxLongState).bidSpread +
          (calculateOptimalSpread tightCfg exampleMarket maxLongState).askSpread
        ≤ tightCfg.maxSpread) := by
  norm_num [calculateOptimalSpread, totalSpreadOf, calculateBaseSpread,
    calculateVolatilityAdjustment, calculateInventorySkew, tightCfg,
    exampleMarket, maxLongState]

/-- C4 witness: the amended theorem at the default configuration and a 75%
long inventory state. -/
theorem calculateOptimalSpread_bounds_witness :
    defaultSpreadCfg.minSpread / 2 ≤
        (calculateOptimalSpread defaultSpreadCfg exampleMarket longState).bidSpread ∧
    defaultSpreadCfg.minSpread / 2 ≤
        (calculateOptimalSpread defaultSpreadCfg exampleMarket longState).askSpread ∧
    (calculateOptimalSpread defaultSpreadCfg exampleMarket longState).bidSpread +
        (calculateOptimalSpread defaultSpreadCfg exampleMarket longState).askSpread
      ≤ defaultSpreadCfg.maxSpread + defaultSpreadCfg.minSpread / 2 :=
  calculateOptimalSpread_bounds defaultSpreadCfg exampleMarket longState
    (by norm_num [defaultSpreadCfg]) (by norm_num [defaultSpreadCfg])
    (by norm_num [longState]) (by norm_num [longState])
    (by norm_num [defaultSpreadCfg, abs_le])

/-! ## Claim C10: `processFill` on an unknown order id -/

/-- C10: when the order id is not in the open-order table, `processFill`
returns `none` and the entire coordinator state — orders, trade history,
inventory controller, total volume, realized P&L — is exactly unchanged. -/
theorem processFill_unknown_order (mm : MarketMaker) (orderId : String)
    (filledSize fillPrice : ℚ) (newTradeId : String) (now : ℚ)
    (h : mm.activeOrders.lookup orderId = none) :
    mm.processFill orderId filledSize fillPrice newTradeId now = (none, mm) := by
  unfold MarketMaker.processFill
  rw [h]

/-- C10 witness: a coordinator holding only order "ord1" ignores a fill for
the unknown id "ord2". -/
theorem processFill_unknown_order_witness :
    sampleMM.processFill "ord2" 10 (3/2) "t9" 0 = (none, sampleMM) :=
  processFill_unknown_order sampleMM "ord2" 10 (3/2) "t9" 0 rfl

/-! ## Claim C6: `initialize` failure conditions and first LP grant -/

/-- Two-sided bounds for `sqrt(150000000)`: it lies in (12247.4, 12247.45). -/
theorem sqrt_150000000_bounds :
    (12247.4 : ℝ) < Real.sqrt 150000000 ∧ Real.sqrt 150000000 < 12247.45 :=
  ⟨(Real.lt_sqrt (by norm_num)).mpr (by norm_num),
   (Real.sqrt_lt' (by norm_num)).mpr (by norm_num)⟩

/-- Evaluating `initialize(10000, 15000)` on the fresh pool. -/
theorem initialize_example_state :
    freshPoolR.initializePool 10000 15000 =
      (.ok ⟨Real.sqrt 150000000 - 1000, 10000, 15000, 1⟩,
       ⟨10000, 15000, Real.sqrt 150000000 - 1000, 3/1000⟩) := by
  have hs : ¬ Real.sqrt ((10000:ℝ) * 15000) < 1000 :=
    not_lt.mpr ((Real.le_sqrt' (by norm_num)).mpr (by norm_num))
  unfold PoolR.initializePool MINIMUM_LIQUIDITY freshPoolR
  rw [if_neg (by norm_num), if_neg (by norm_num), if_neg hs]
  norm_num

/-- C6 (amended): `initialize(a, b)` fails exactly when the pool already holds
LP supply, or `a ≤ 0`, or `b ≤ 0`, or `sqrt(a*b) < 1000`; on success the
first depositor's LP grant and the resulting `lpTokenSupply` both equal
`sqrt(a*b) − 1000`.  For the example `initialize(10000, 15000)` the price is
exactly 1.5 and the LP supply is `sqrt(150000000) − 1000 ≈ 11247.4`
(the spec's figure of ≈ 11246.9 is off: the supply lies in
(11247.4, 11247.45)). -/
theorem initialize_characterization :
    (∀ (p : PoolR) (a b : ℝ),
        ((∃ e, (p.initializePool a b).1 = .error e) ↔
          0 < p.lpTokenSupply ∨ a ≤ 0 ∨ b ≤ 0 ∨ Real.sqrt (a * b) < 1000)) ∧
    (∀ (p : PoolR) (a b : ℝ),
        ¬ (0 < p.lpTokenSupply ∨ a ≤ 0 ∨ b ≤ 0 ∨ Real.sqrt (a * b) < 1000) →
          p.initializePool a b =
            (.ok ⟨Real.sqrt (a * b) - 1000, a, b, 1⟩,
             ⟨a, b, Real.sqrt (a * b) - 1000, p.fee⟩)) ∧
    ((freshPoolR.initializePool 10000 15000).2.getPrice = 3/2 ∧
     11247.4 < (freshPoolR.initializePool 10000 15000).2.lpTokenSupply ∧
     (freshPoolR.initializePool 10000 15000).2.lpTokenSupply < 11247.45) := by
  refine ⟨?_, ?_, ?_⟩
  · intro p a b
    constructor
    · rintro ⟨e, he⟩
      unfold PoolR.initializePool MINIMUM_LIQUIDITY at he
      dsimp only at he
      split_ifs at he with h1 h2 h3
      · exact Or.inl h1
      · exact Or.inr (h2.imp id Or.inl)
      · exact Or.inr (Or.inr (Or.inr h3))
    · intro hd
      unfold PoolR.initializePool MINIMUM_LIQUIDITY
      dsimp only
      split_ifs with h1 h2 h3
      · exact ⟨.alreadyInitialized, rfl⟩
      · exact ⟨.invalidInitialAmounts, rfl⟩
      · exact ⟨.initialLiquidityTooLow, rfl⟩
      · rcases hd with h | h | h | h
        · exact absurd h h1
        · exact absurd (Or.inl h) h2
        · exact absurd (Or.inr h) h2
        · exact absurd h h3
  · intro p a b hn
    unfold PoolR.initializePool MINIMUM_LIQUIDITY
    dsimp only
    split_ifs with h1 h2 h3
    · exact absurd (Or.inl h1) hn
    · exact absurd (Or.inr (h2.imp id Or.inl)) hn
    · exact absurd (Or.inr (Or.inr (Or.inr h3))) hn
    · rfl
  · rw [initialize_example_state]
    refine ⟨by norm_num [PoolR.getPrice], ?_, ?_⟩
    · have := sqrt_150000000_bounds.1
      show (11247.4 : ℝ) < Real.sqrt 150000000 - 1000
      norm_num
      linarith
    · have := sqrt_150000000_bounds.2
      show Real.sqrt 150000000 - 1000 < 11247.45
      linarith

/-- C6 counterexample to the spec's numeric gloss: the LP supply after
`initialize(10000, 15000)` is `sqrt(150000000) − 1000 ≈ 11247.45`, which is
not within 0.5 of the claimed ≈ 11246.9. -/
theorem initialize_example_lp_not_11246_9 :
    ¬ |(freshPoolR.initializePool 10000 15000).2.lpTokenSupply - 11246.9| ≤ 1/2 := by
  rw [initialize_example_state]
  intro habs
  have h2 := (abs_le.mp habs).2
  have h1 := sqrt_150000000_bounds.1
  dsimp only at h2
  norm_num at h1 h2
  linarith

/-- C6 witness: the success branch of the characterization applied at the
example input. -/
theorem initialize_characterization_witness :
    freshPoolR.initializePool 10000 15000 =
      (.ok ⟨Real.sqrt (10000 * 15000) - 1000, 10000, 15000, 1⟩,
       ⟨10000, 15000, Real.sqrt (10000 * 15000) - 1000, freshPoolR.fee⟩) :=
  initialize_characterization.2.1 freshPoolR 10000 15000 (by
    push_neg
    refine ⟨by norm_num [freshPoolR], by norm_num, by norm_num, ?_⟩
    exact (Real.le_sqrt' (by norm_num)).mpr (by norm_num))

end MM
